import Mathlib

/-!
Verification of the `meta_core` lock manager (`src/lock.rs`) and atomic
store (`src/store.rs`).

The filesystem is shallowly embedded as an association list from paths to
file contents.  A path is a pair of an (opaque) directory string and a file
name given as a list of characters, so that Rust's `Path::with_extension`
(which splits the file name at its last dot) can be modelled and reasoned
about directly.

Pure Rust functions become Lean functions; the stateful lock/store code is
embedded as explicit state passing over the filesystem value.  Interference
from other OS processes on the lock file is modelled by a list of
environment actions consumed before each lock-file system call; the empty
list gives the sequential (no-interference) semantics.
-/

/-- A filesystem path: (directory, file name).  The directory part is
opaque; the file name is a character list so extension handling can be
modelled faithfully. -/
abbrev FilePathM := String × List Char

/-- The filesystem: an association list from paths to file contents.
`FS.read` returns the first binding, `FS.write` replaces any binding. -/
abbrev FS := List (FilePathM × String)

/-- Content of the file at `p`, or `none` when no such file exists. -/
def FS.read : FS → FilePathM → Option String
  | [], _ => none
  | (q, c) :: rest, p => if q = p then some c else FS.read rest p

/-- Delete the file at `p` (models `std::fs::remove_file`; removing a
missing file is a no-op, matching the `let _ = remove_file(..)` uses). -/
def FS.erase : FS → FilePathM → FS
  | [], _ => []
  | (q, c) :: rest, p => if q = p then FS.erase rest p else (q, c) :: FS.erase rest p

/-- Create or overwrite the file at `p` with contents `c`
(models `std::fs::write`). -/
def FS.write (fs : FS) (p : FilePathM) (c : String) : FS :=
  (p, c) :: FS.erase fs p

/-- Atomically move the file at `src` onto `dst`
(models `std::fs::rename`; a missing source leaves the filesystem
unchanged — that case is unreachable in `write_atomic`). -/
def FS.rename (fs : FS) (src dst : FilePathM) : FS :=
  match FS.read fs src with
  | none => fs
  | some c => FS.write (FS.erase fs src) dst c

theorem FS.read_erase_self (fs : FS) (p : FilePathM) :
    FS.read (FS.erase fs p) p = none := by
  induction fs with
  | nil => rfl
  | cons e rest ih =>
    obtain ⟨q, c⟩ := e
    by_cases h : q = p
    · simp [FS.erase, h, ih]
    · simp [FS.erase, FS.read, h, ih]

theorem FS.read_erase_ne (fs : FS) (p q : FilePathM) (h : q ≠ p) :
    FS.read (FS.erase fs p) q = FS.read fs q := by
  induction fs with
  | nil => rfl
  | cons e rest ih =>
    obtain ⟨r, c⟩ := e
    by_cases hr : r = p
    · subst hr
      have hrq : ¬ r = q := fun hq => h hq.symm
      simp [FS.erase, FS.read, hrq, ih]
    · simp [FS.erase, FS.read, hr, ih]

theorem FS.read_write_self (fs : FS) (p : FilePathM) (c : String) :
    FS.read (FS.write fs p c) p = some c := by
  simp [FS.write, FS.read]

theorem FS.read_write_ne (fs : FS) (p q : FilePathM) (c : String) (h : q ≠ p) :
    FS.read (FS.write fs p c) q = FS.read fs q := by
  have hpq : ¬ p = q := fun hq => h hq.symm
  simp [FS.write, FS.read, hpq, FS.read_erase_ne fs p q h]

/-! ### File-name extension handling (Rust `Path::with_extension`)

`store.rs` computes its temporary path as `path.with_extension("tmp")`.
Rust splits the file name at its **last** dot: the part after it is the
extension, which gets replaced; a file name whose only dot is the leading
character (e.g. `.gitignore`) has no extension and `.tmp` is appended. -/

/-- Split a file name at its last `'.'`: `some (before, after)`, or `none`
when the name contains no dot. -/
def lastDotSplit : List Char → Option (List Char × List Char)
  | [] => none
  | c :: rest =>
    match lastDotSplit rest with
    | some p => some (c :: p.1, p.2)
    | none => if c = '.' then some ([], rest) else none

/-- Rust `Path::extension` on a file name: the part after the last dot,
unless that dot is the leading character (hidden-file rule). -/
def extOf (name : List Char) : Option (List Char) :=
  match lastDotSplit name with
  | some p => if p.1 = [] then none else some p.2
  | none => none

/-- Rust `file_name.with_extension("tmp")`: replace the extension (the part
after the last dot) by `tmp`; append `.tmp` when there is no extension. -/
def withExtTmp (name : List Char) : List Char :=
  match lastDotSplit name with
  | some p =>
    if p.1 = [] then name ++ ('.' :: 't' :: 'm' :: 'p' :: [])
    else p.1 ++ ('.' :: 't' :: 'm' :: 'p' :: [])
  | none => name ++ ('.' :: 't' :: 'm' :: 'p' :: [])

/-- The temporary path used by `write_atomic`:
`let tmp_path = path.with_extension("tmp")`. -/
def tmpPath (p : FilePathM) : FilePathM := (p.1, withExtTmp p.2)

/-- Does the filesystem contain any file whose name has extension `tmp`? -/
def anyTmpFile (fs : FS) : Bool :=
  fs.any (fun e => extOf e.1.2 == some ('t' :: 'm' :: 'p' :: []))

theorem lastDotSplit_no_dot (l : List Char) (h : '.' ∉ l) :
    lastDotSplit l = none := by
  induction l with
  | nil => rfl
  | cons c rest ih =>
    have hc : ¬ c = '.' := fun hc => h (by simp [hc])
    have hrest : '.' ∉ rest := fun hm => h (List.mem_cons_of_mem c hm)
    simp [lastDotSplit, ih hrest, hc]

theorem lastDotSplit_append_dot (stem ext : List Char) (hext : '.' ∉ ext) :
    lastDotSplit (stem ++ '.' :: ext) = some (stem, ext) := by
  induction stem with
  | nil => simp [lastDotSplit, lastDotSplit_no_dot ext hext]
  | cons c rest ih => simp [lastDotSplit, ih]

/-! ### Text utilities

Rust's `str::trim` and `str::parse::<u32>` are modelled structurally on
character lists (via `String.data`), so that all definitions evaluate by
kernel reduction. -/

/-- Rust `str::trim`: remove whitespace from both ends. -/
def trimChars (l : List Char) : List Char :=
  ((l.dropWhile Char.isWhitespace).reverse.dropWhile Char.isWhitespace).reverse

/-- Accumulating decimal-digit parser. -/
def parseDigitsGo : Nat → List Char → Option Nat
  | acc, [] => some acc
  | acc, c :: rest =>
    if c.isDigit then parseDigitsGo (acc * 10 + (c.toNat - 48)) rest else none

/-- Rust `str::parse::<u32>` on already-trimmed text: non-empty, decimal
digits only, value below `2^32`. -/
def parsePid (l : List Char) : Option Nat :=
  match l with
  | [] => none
  | _ :: _ =>
    match parseDigitsGo 0 l with
    | some n => if n < 4294967296 then some n else none
    | none => none

/-! ### The atomic store (`src/store.rs`)

Serialization (`serde_json`) is abstracted as a codec: a default value, a
serializer and a (possibly failing) deserializer.  Theorems that need the
round-trip property of the concrete serializer take it as a hypothesis. -/

/-- Serialization interface standing in for
`serde` / `serde_json` + `Default` in `store.rs`. -/
structure Codec (T : Type) where
  dfault : T
  ser : T → String
  deser : String → Option T

/-- Store-level error: an existing, non-empty file failed to deserialize
(`Failed to parse store file`).  I/O failures of `read_to_string` on an
existing file are not representable in the model. -/
inductive StoreErr where
  | parseFailure (p : FilePathM) : StoreErr
deriving DecidableEq

namespace Store

/-- `store::read`: default when the file is missing or its contents trim
to empty; parse otherwise, surfacing a parse failure as an error. -/
def read {T : Type} (C : Codec T) (fs : FS) (p : FilePathM) : Except StoreErr T :=
  match FS.read fs p with
  | none => .ok C.dfault
  | some content =>
    if trimChars content.data = [] then .ok C.dfault
    else
      match C.deser content with
      | some v => .ok v
      | none => .error (.parseFailure p)

/-- `store::write_atomic`: serialize, write to the `.tmp` sibling computed
by `path.with_extension("tmp")`, then rename onto the target.  (Parent
directory creation is not modelled: directories always exist.) -/
def write_atomic {T : Type} (C : Codec T) (fs : FS) (p : FilePathM) (v : T) : FS :=
  let tmp := tmpPath p
  let json := C.ser v
  let fs1 := FS.write fs tmp json
  FS.rename fs1 tmp p

end Store

/-- A concrete codec (natural numbers as decimal strings) used to
instantiate the generic store theorems on concrete inputs. -/
def natCodec : Codec Nat where
  dfault := 0
  ser := fun n => toString n
  deser := fun s => parsePid s.data

/-! ### The lock manager (`src/lock.rs`)

`acquire` loops `for attempt in 0..=max_retries`, each iteration trying
an exclusive (`O_CREAT | O_EXCL`) creation of the lock file; on failure it
either reclaims a stale lock, sleeps, or (on the last attempt) errors out.

Process liveness (`is_process_alive`, the `kill(pid, 0)` probe) is a query
on OS state outside the program, so it is a parameter `alive : Nat → Bool`
of the embedding, as the spec itself suggests ("abstract it behind a single
injectable capability").

Other processes may change the lock file between any two of our system
calls.  This is modelled by a list of environment actions, one consumed
before each lock-file system call: `none` leaves the file alone,
`some none` deletes it, `some (some c)` creates/overwrites it with `c`.
An exhausted list means no further interference, so the empty list is the
sequential semantics. -/

/-- One environment (other-process) action on the lock file. -/
abbrev EnvAct := Option (Option String)

/-- Consume one environment action, applying it to the lock file. -/
def applyEnv (lockP : FilePathM) (fs : FS) : List EnvAct → FS × List EnvAct
  | [] => (fs, [])
  | a :: rest =>
    match a with
    | none => (fs, rest)
    | some none => (FS.erase fs lockP, rest)
    | some (some c) => (FS.write fs lockP c, rest)

/-- Instrumentation counters for one `acquire` run: how many exclusive
creations were attempted, how many staleness checks (`stale_pid` calls),
sleeps, and lock-file deletions were performed. -/
structure Trace where
  creates : Nat
  staleChecks : Nat
  sleeps : Nat
  removes : Nat
deriving DecidableEq

/-- Lock-manager errors. `busy` is the reachable failure
("Failed to acquire lock at {path} after {n} attempts", n = max_retries+1);
`busyBail` is the `anyhow::bail!` after the loop, which names
`max_retries` and is dead code. -/
inductive LockErr where
  | busy (p : FilePathM) (attempts : Nat) : LockErr
  | busyBail (p : FilePathM) (retries : Nat) : LockErr
deriving DecidableEq

namespace Lock

/-- The PID text written into a freshly created lock file:
`writeln!(file, "{pid}")`. -/
def pidContent (pid : Nat) : String := toString pid ++ "\n"

/-- `try_create_lock`: exclusive creation (`create_new(true)`), then write
the caller's PID.  Fails iff the file already exists. -/
def try_create_lock (pid : Nat) (fs : FS) (lockP : FilePathM) : Except Unit FS :=
  if (FS.read fs lockP).isSome then .error ()
  else .ok (FS.write fs lockP (pidContent pid))

/-- `read_lock_pid`: read the lock file and parse its trimmed contents,
`none` when unreadable or unparseable. -/
def read_lock_pid (fs : FS) (lockP : FilePathM) : Option Nat :=
  match FS.read fs lockP with
  | none => none
  | some content => parsePid (trimChars content.data)

/-- `stale_pid`: the recorded PID when it is dead, `none` when the file is
unreadable/unparseable or the PID is alive. -/
def stale_pid (alive : Nat → Bool) (fs : FS) (lockP : FilePathM) : Option Nat :=
  match read_lock_pid fs lockP with
  | none => none
  | some pid => if alive pid then none else some pid

/-- `is_stale`: `stale_pid(lock_path).is_some()`. -/
def is_stale (alive : Nat → Bool) (fs : FS) (lockP : FilePathM) : Bool :=
  (stale_pid alive fs lockP).isSome

/-- The `for attempt in 0..=max_retries` loop of `acquire`.  `fuel` is the
number of loop iterations left (`max_retries + 1 - attempt`); the `fuel = 0`
case is the trailing `anyhow::bail!` after the loop.  One environment
action is consumed before each lock-file system call. -/
def acquireGo (alive : Nat → Bool) (pid : Nat) (lockP : FilePathM) (maxRetries : Nat) :
    Nat → Nat → FS → List EnvAct → Trace →
    Except LockErr Unit × FS × List EnvAct × Trace
  | 0, _, fs, envs, tr => (.error (.busyBail lockP maxRetries), fs, envs, tr)
  | fuel + 1, attempt, fs, envs, tr =>
    let s1 := applyEnv lockP fs envs
    let tr1 : Trace := ⟨tr.creates + 1, tr.staleChecks, tr.sleeps, tr.removes⟩
    match try_create_lock pid s1.1 lockP with
    | .ok fs2 => (.ok (), fs2, s1.2, tr1)
    | .error _ =>
      if attempt < maxRetries then
        let s2 := applyEnv lockP s1.1 s1.2
        let tr2 : Trace := ⟨tr1.creates, tr1.staleChecks + 1, tr1.sleeps, tr1.removes⟩
        match stale_pid alive s2.1 lockP with
        | some sp =>
          let s3 := applyEnv lockP s2.1 s2.2
          if read_lock_pid s3.1 lockP = some sp then
            let s4 := applyEnv lockP s3.1 s3.2
            acquireGo alive pid lockP maxRetries fuel (attempt + 1)
              (FS.erase s4.1 lockP) s4.2
              ⟨tr2.creates, tr2.staleChecks, tr2.sleeps, tr2.removes + 1⟩
          else
            acquireGo alive pid lockP maxRetries fuel (attempt + 1) s3.1 s3.2 tr2
        | none =>
          acquireGo alive pid lockP maxRetries fuel (attempt + 1) s2.1 s2.2
            ⟨tr2.creates, tr2.staleChecks, tr2.sleeps + 1, tr2.removes⟩
      else
        (.error (.busy lockP (maxRetries + 1)), s1.1, s1.2, tr1)

/-- `acquire(lock_path, max_retries, retry_ms)`.  The sleep duration
`retryMs` only determines how long the sleeps last, which the model counts
but does not time; parent-directory creation is not modelled. -/
def acquire (alive : Nat → Bool) (pid : Nat) (lockP : FilePathM)
    (maxRetries : Nat) (retryMs : Nat) (fs : FS) (envs : List EnvAct) :
    Except LockErr Unit × FS × List EnvAct × Trace :=
  acquireGo alive pid lockP maxRetries (maxRetries + 1) 0 fs envs ⟨0, 0, 0, 0⟩

/-- `impl Drop for LockGuard`: `let _ = fs::remove_file(&self.path)`. -/
def dropGuard (lockP : FilePathM) (fs : FS) : FS := FS.erase fs lockP

end Lock

/-! ### Store theorems -/

/-- C6: `read` returns the default value without error when the path does
not exist or its contents trim to empty, and returns a parse error (never
the default, indeed never any `ok`) when the file exists, is non-empty
after trimming, and cannot be deserialized. -/
theorem C6_read_default_on_absence_error_on_corrupt
    (T : Type) (C : Codec T) (fs : FS) (p : FilePathM) :
    (FS.read fs p = none → Store.read C fs p = .ok C.dfault) ∧
    (∀ content, FS.read fs p = some content → trimChars content.data = [] →
      Store.read C fs p = .ok C.dfault) ∧
    (∀ content, FS.read fs p = some content → trimChars content.data ≠ [] →
      C.deser content = none →
      Store.read C fs p = .error (.parseFailure p) ∧
      ∀ v, Store.read C fs p ≠ .ok v) := by
  refine ⟨?_, ?_, ?_⟩
  · intro h
    simp [Store.read, h]
  · intro content h he
    simp [Store.read, h, he]
  · intro content h hne hde
    refine ⟨?_, ?_⟩
    · simp [Store.read, h, hne, hde]
    · intro v
      simp [Store.read, h, hne, hde]

theorem C6_read_default_on_absence_error_on_corrupt_witness :
    Store.read natCodec [] ("d", "s.json".toList) = .ok natCodec.dfault ∧
    Store.read natCodec [(("d", "s.json".toList), "  \n")] ("d", "s.json".toList)
      = .ok natCodec.dfault ∧
    Store.read natCodec [(("d", "s.json".toList), "oops")] ("d", "s.json".toList)
      = .error (.parseFailure ("d", "s.json".toList)) :=
  ⟨(C6_read_default_on_absence_error_on_corrupt Nat natCodec [] ("d", "s.json".toList)).1
      (by decide),
   (C6_read_default_on_absence_error_on_corrupt Nat natCodec
      [(("d", "s.json".toList), "  \n")] ("d", "s.json".toList)).2.1 "  \n"
      (by decide) (by decide),
   ((C6_read_default_on_absence_error_on_corrupt Nat natCodec
      [(("d", "s.json".toList), "oops")] ("d", "s.json".toList)).2.2 "oops"
      (by decide) (by decide) (by decide)).1⟩

/-- C7 counterexample: the claim "after `write_atomic(p, v)` returns
successfully no file with the `.tmp` suffix remains" fails at the concrete
target path `a.tmp`: its temporary path (`with_extension("tmp")`) is the
target itself, so after a successful `write_atomic` on an initially empty
filesystem a file with extension `tmp` (the target) remains. -/
theorem C7_counterexample_tmp_named_target :
    anyTmpFile (Store.write_atomic natCodec [] ("d", "a.tmp".toList) 7) = true := by
  decide

/-- C7 (amended): after `write_atomic(p, v)`, the temporary path it used
does not remain as a separate file — whenever the temporary path differs
from the target, it does not exist afterwards — and, provided the
serializer round-trips on `v` and its output does not trim to empty,
`read(p)` immediately afterwards returns exactly `v`. -/
theorem C7_write_atomic_no_tmp_left_and_roundtrip
    (T : Type) (C : Codec T) (fs : FS) (p : FilePathM) (v : T)
    (hrt : C.deser (C.ser v) = some v) (hws : trimChars (C.ser v).data ≠ [])
    (hne : tmpPath p ≠ p) :
    FS.read (Store.write_atomic C fs p v) (tmpPath p) = none ∧
    Store.read C (Store.write_atomic C fs p v) p = .ok v := by
  have hread : FS.read (FS.write fs (tmpPath p) (C.ser v)) (tmpPath p)
      = some (C.ser v) := FS.read_write_self ..
  have hne2 : tmpPath p ≠ p := hne
  constructor
  · simp only [Store.write_atomic, FS.rename, hread]
    rw [FS.read_write_ne _ _ _ _ hne2]
    exact FS.read_erase_self ..
  · simp only [Store.write_atomic, FS.rename, hread]
    simp [Store.read, FS.read_write_self, hws, hrt]

theorem C7_write_atomic_no_tmp_left_and_roundtrip_witness :
    FS.read (Store.write_atomic natCodec [] ("d", "a.json".toList) 7)
      (tmpPath ("d", "a.json".toList)) = none ∧
    Store.read natCodec (Store.write_atomic natCodec [] ("d", "a.json".toList) 7)
      ("d", "a.json".toList) = .ok 7 :=
  C7_write_atomic_no_tmp_left_and_roundtrip Nat natCodec []
    ("d", "a.json".toList) 7 (by decide) (by decide) (by decide)

/-- C10: `write_atomic` computes its temporary path by replacing the
target's file extension with `tmp` (not by appending `.tmp`): for any
target name `stem.ext` with non-empty stem and dot-free extension the
temporary name is `stem.tmp`, so two targets in the same directory that
differ only in their extension share the same temporary path. -/
theorem C10_tmp_path_replaces_extension
    (d : String) (stem e1 e2 : List Char)
    (hs : stem ≠ []) (h1 : '.' ∉ e1) (h2 : '.' ∉ e2) :
    tmpPath (d, stem ++ '.' :: e1) = (d, stem ++ ('.' :: 't' :: 'm' :: 'p' :: [])) ∧
    tmpPath (d, stem ++ '.' :: e1) = tmpPath (d, stem ++ '.' :: e2) := by
  have k1 := lastDotSplit_append_dot stem e1 h1
  have k2 := lastDotSplit_append_dot stem e2 h2
  constructor
  · simp [tmpPath, withExtTmp, k1, hs]
  · simp [tmpPath, withExtTmp, k1, k2, hs]

theorem C10_tmp_path_replaces_extension_witness :
    tmpPath ("d", "a".toList ++ '.' :: "json".toList)
      = ("d", "a".toList ++ ('.' :: 't' :: 'm' :: 'p' :: [])) ∧
    tmpPath ("d", "a".toList ++ '.' :: "json".toList)
      = tmpPath ("d", "a".toList ++ '.' :: "yaml".toList) :=
  C10_tmp_path_replaces_extension "d" "a".toList "json".toList "yaml".toList
    (by decide) (by decide) (by decide)

/-! ### Lock-manager helper lemmas -/

/-- With zero retries and an existing lock file, the single creation
attempt fails and `acquire` errors immediately, leaving everything
untouched. -/
theorem Lock.acquire_zero_retries_busy (alive : Nat → Bool) (pid : Nat)
    (lockP : FilePathM) (rms : Nat) (fs : FS) (c : String)
    (hread : FS.read fs lockP = some c) :
    Lock.acquire alive pid lockP 0 rms fs [] =
      (.error (.busy lockP 1), fs, [], ⟨1, 0, 0, 0⟩) := by
  simp [Lock.acquire, Lock.acquireGo, applyEnv, Lock.try_create_lock, hread]

/-- While the lock file stays put and `stale_pid` keeps answering `none`
(live or unparseable owner), every remaining iteration sleeps and retries,
and the run ends in the busy error carrying `max_retries + 1`. -/
theorem Lock.acquireGo_live_busy (alive : Nat → Bool) (pid : Nat)
    (lockP : FilePathM) (maxRetries : Nat) (c : String) :
    ∀ fuel attempt fs tr, 1 ≤ fuel → attempt + fuel = maxRetries + 1 →
    FS.read fs lockP = some c →
    Lock.stale_pid alive fs lockP = none →
    Lock.acquireGo alive pid lockP maxRetries fuel attempt fs [] tr =
      (.error (.busy lockP (maxRetries + 1)), fs, [],
       ⟨tr.creates + fuel, tr.staleChecks + (fuel - 1),
        tr.sleeps + (fuel - 1), tr.removes⟩) := by
  intro fuel
  induction fuel with
  | zero =>
    intro attempt fs tr h1 h2 hread hstale
    omega
  | succ n ih =>
    intro attempt fs tr h1 h2 hread hstale
    by_cases hlt : attempt < maxRetries
    · have hn : 1 ≤ n := by omega
      have hrec := ih (attempt + 1) fs
        ⟨tr.creates + 1, tr.staleChecks + 1, tr.sleeps + 1, tr.removes⟩
        hn (by omega) hread hstale
      simp only [Lock.acquireGo, applyEnv, Lock.try_create_lock, hread,
        Option.isSome_some, if_true, if_pos hlt, hstale]
      rw [hrec]
      simp only [Prod.mk.injEq, Trace.mk.injEq]
      refine ⟨trivial, trivial, trivial, by omega, by omega, by omega, trivial⟩
    · have hn0 : n = 0 := by omega
      subst hn0
      simp only [Lock.acquireGo, applyEnv, Lock.try_create_lock, hread,
        Option.isSome_some, if_true, if_neg hlt]
      simp only [Prod.mk.injEq, Trace.mk.injEq]
      refine ⟨trivial, trivial, trivial, trivial, by omega, by omega, trivial⟩

/-- Sequential run on a stale lock with at least one retry: attempt 0
fails to create, finds the recorded PID dead, double-checks it, deletes
the file (one remove, no sleep), and attempt 1 creates the lock, writing
the caller's PID. -/
theorem Lock.acquire_stale_seq (alive : Nat → Bool) (pid : Nat)
    (lockP : FilePathM) (k rms : Nat) (fs : FS) (c : String) (d : Nat)
    (hread : FS.read fs lockP = some c)
    (hparse : parsePid (trimChars c.data) = some d)
    (hdead : alive d = false) :
    Lock.acquire alive pid lockP (k + 1) rms fs [] =
      (.ok (), FS.write (FS.erase fs lockP) lockP (Lock.pidContent pid),
       [], ⟨2, 1, 0, 1⟩) := by
  have hrlp : Lock.read_lock_pid fs lockP = some d := by
    simp [Lock.read_lock_pid, hread, hparse]
  have hsp : Lock.stale_pid alive fs lockP = some d := by
    simp [Lock.stale_pid, hrlp, hdead]
  have herase : FS.read (FS.erase fs lockP) lockP = none :=
    FS.read_erase_self fs lockP
  simp [Lock.acquire, Lock.acquireGo, applyEnv, Lock.try_create_lock,
    hread, hsp, hrlp, herase]

/-- Across any world and any interference, an `acquireGo` run starting at
`attempt` with `fuel` iterations left performs at most `fuel - 1`
staleness checks: the final iteration (`attempt = max_retries`) never
checks staleness. -/
theorem Lock.acquireGo_staleChecks_le (alive : Nat → Bool) (pid : Nat)
    (lockP : FilePathM) (maxRetries : Nat) :
    ∀ fuel attempt fs envs tr, attempt + fuel = maxRetries + 1 →
    (Lock.acquireGo alive pid lockP maxRetries fuel attempt fs envs tr).2.2.2.staleChecks
      ≤ tr.staleChecks + (fuel - 1) := by
  intro fuel
  induction fuel with
  | zero =>
    intro attempt fs envs tr h
    simp [Lock.acquireGo]
  | succ n ih =>
    intro attempt fs envs tr h
    simp only [Lock.acquireGo]
    split
    · show tr.staleChecks ≤ tr.staleChecks + (n + 1 - 1)
      omega
    · split
      · rename_i hlt
        have hn : 1 ≤ n := by omega
        split
        · split
          · refine le_trans (ih (attempt + 1) _ _ _ (by omega)) ?_
            show tr.staleChecks + 1 + (n - 1) ≤ tr.staleChecks + (n + 1 - 1)
            omega
          · refine le_trans (ih (attempt + 1) _ _ _ (by omega)) ?_
            show tr.staleChecks + 1 + (n - 1) ≤ tr.staleChecks + (n + 1 - 1)
            omega
        · refine le_trans (ih (attempt + 1) _ _ _ (by omega)) ?_
          show tr.staleChecks + 1 + (n - 1) ≤ tr.staleChecks + (n + 1 - 1)
          omega
      · show tr.staleChecks ≤ tr.staleChecks + (n + 1 - 1)
        omega

/-! ### Lock-manager claim theorems -/

/-- C8: `acquire` makes exactly `max_retries + 1` creation attempts, and
when every attempt finds the lock file present with a holder that is live
or unreadable/unparseable (`stale_pid` answers `none`), it fails with the
lock-busy error that names the lock path and the attempt count
`max_retries + 1` — surfaced in the returned value, never swallowed. -/
theorem C8_busy_error_after_exact_attempts (alive : Nat → Bool) (pid : Nat)
    (lockP : FilePathM) (mr rms : Nat) (fs : FS) (c : String)
    (hread : FS.read fs lockP = some c)
    (hstale : Lock.stale_pid alive fs lockP = none) :
    Lock.acquire alive pid lockP mr rms fs [] =
      (.error (.busy lockP (mr + 1)), fs, [], ⟨mr + 1, mr, mr, 0⟩) := by
  have h := Lock.acquireGo_live_busy alive pid lockP mr c (mr + 1) 0 fs
    ⟨0, 0, 0, 0⟩ (by omega) (by omega) hread hstale
  simpa [Lock.acquire] using h

theorem C8_busy_error_after_exact_attempts_witness :
    Lock.acquire (fun _ => true) 7 ("d", "s.lock".toList) 2 10
      [(("d", "s.lock".toList), "42\n")] [] =
      (.error (.busy ("d", "s.lock".toList) 3),
       [(("d", "s.lock".toList), "42\n")], [], ⟨3, 2, 2, 0⟩) :=
  C8_busy_error_after_exact_attempts (fun _ => true) 7 ("d", "s.lock".toList)
    2 10 [(("d", "s.lock".toList), "42\n")] "42\n" (by decide) (by decide)

/-- C9: with `max_retries = 0` and the lock file present, `acquire` errors
immediately — no staleness check, no sleep, no deletion, and the
filesystem is returned unchanged — and in general (any world, any
interference) at most `max_retries` staleness checks are performed, i.e.
the final attempt of the loop never checks staleness. -/
theorem C9_no_staleness_on_final_attempt :
    (∀ (alive : Nat → Bool) (pid : Nat) (lockP : FilePathM) (rms : Nat)
       (fs : FS) (c : String), FS.read fs lockP = some c →
      Lock.acquire alive pid lockP 0 rms fs [] =
        (.error (.busy lockP 1), fs, [], ⟨1, 0, 0, 0⟩)) ∧
    (∀ (alive : Nat → Bool) (pid : Nat) (lockP : FilePathM) (mr rms : Nat)
       (fs : FS) (envs : List EnvAct),
      (Lock.acquire alive pid lockP mr rms fs envs).2.2.2.staleChecks ≤ mr) := by
  constructor
  · intro alive pid lockP rms fs c hread
    exact Lock.acquire_zero_retries_busy alive pid lockP rms fs c hread
  · intro alive pid lockP mr rms fs envs
    have h := Lock.acquireGo_staleChecks_le alive pid lockP mr (mr + 1) 0 fs envs
      ⟨0, 0, 0, 0⟩ (by omega)
    simpa [Lock.acquire] using h

theorem C9_no_staleness_on_final_attempt_witness :
    Lock.acquire (fun _ => false) 7 ("d", "s.lock".toList) 0 10
      [(("d", "s.lock".toList), "999999999\n")] [] =
      (.error (.busy ("d", "s.lock".toList) 1),
       [(("d", "s.lock".toList), "999999999\n")], [], ⟨1, 0, 0, 0⟩) ∧
    (Lock.acquire (fun _ => false) 7 ("d", "s.lock".toList) 2 10
      [(("d", "s.lock".toList), "999999999\n")] []).2.2.2.staleChecks ≤ 2 :=
  ⟨C9_no_staleness_on_final_attempt.1 (fun _ => false) 7 ("d", "s.lock".toList)
     10 [(("d", "s.lock".toList), "999999999\n")] "999999999\n" (by decide),
   C9_no_staleness_on_final_attempt.2 (fun _ => false) 7 ("d", "s.lock".toList)
     2 10 [(("d", "s.lock".toList), "999999999\n")] []⟩

/-- C5 (code bug): `is_stale` is documented (doc comment in `lock.rs`, and
the spec) to return true when the lock file does not exist, cannot be
read, or is unparseable — but `stale_pid` propagates `None` for an
unreadable/unparseable file, so `is_stale` returns **false** in those
cases.  It does return true on a parseable dead PID (the only case its
unit test exercises). -/
theorem C5_is_stale_false_on_unreadable :
    Lock.is_stale (fun _ => false) [] ("d", "s.lock".toList) = false ∧
    Lock.is_stale (fun _ => false)
      [(("d", "s.lock".toList), "not-a-pid\n")] ("d", "s.lock".toList) = false ∧
    Lock.is_stale (fun _ => false)
      [(("d", "s.lock".toList), "999999999\n")] ("d", "s.lock".toList) = true := by
  decide

/-- C4 counterexample: a stale lock can cause `acquire` to fail with the
retry budget exhausted.  With `max_retries = 0` a stale lock (dead PID
999999999, liveness probe constantly false) fails immediately, the
staleness path never being reached; and with `max_retries = 1`, a run in
which every observed lock is stale and one stale lock **is** reclaimed
(`removes = 1`, another process re-creating a stale lock before the next
creation attempt) still ends busy after both attempts — the reclaiming
iteration consumed one of the `max_retries + 1` attempts. -/
theorem C4_counterexample_stale_lock_exhausts_budget :
    Lock.acquire (fun _ => false) 7 ("d", "s.lock".toList) 0 10
      [(("d", "s.lock".toList), "999999999\n")] [] =
      (.error (.busy ("d", "s.lock".toList) 1),
       [(("d", "s.lock".toList), "999999999\n")], [], ⟨1, 0, 0, 0⟩) ∧
    Lock.acquire (fun _ => false) 7 ("d", "s.lock".toList) 1 10
      [(("d", "s.lock".toList), "999999999\n")]
      [none, none, none, none, some (some "888888888\n")] =
      (.error (.busy ("d", "s.lock".toList) 2),
       [(("d", "s.lock".toList), "888888888\n")], [], ⟨2, 1, 0, 1⟩) := by
  constructor
  · rfl
  · rfl

/-- C4 (amended): the stale-reclaim path skips the sleep but still
occupies one loop iteration, and the staleness check only happens while
`attempt < max_retries`.  Hence with `max_retries = 0` an existing stale
lock makes `acquire` fail immediately, while with `max_retries ≥ 1` and no
interference a stale lock is reclaimed and `acquire` succeeds using a
second creation attempt, with no sleep and one deletion. -/
theorem C4_stale_reclaim_skips_sleep_but_consumes_attempt
    (alive : Nat → Bool) (pid : Nat) (lockP : FilePathM) (mr rms : Nat)
    (fs : FS) (c : String) (d : Nat)
    (hread : FS.read fs lockP = some c)
    (hparse : parsePid (trimChars c.data) = some d)
    (hdead : alive d = false) :
    (Lock.acquire alive pid lockP 0 rms fs []).1 = .error (.busy lockP 1) ∧
    (1 ≤ mr →
      (Lock.acquire alive pid lockP mr rms fs []).1 = .ok () ∧
      (Lock.acquire alive pid lockP mr rms fs []).2.2.2 = ⟨2, 1, 0, 1⟩) := by
  constructor
  · rw [Lock.acquire_zero_retries_busy alive pid lockP rms fs c hread]
  · intro hmr
    obtain ⟨k, hk⟩ : ∃ k, mr = k + 1 := ⟨mr - 1, by omega⟩
    subst hk
    rw [Lock.acquire_stale_seq alive pid lockP k rms fs c d hread hparse hdead]
    exact ⟨rfl, rfl⟩

theorem C4_stale_reclaim_skips_sleep_but_consumes_attempt_witness :
    (Lock.acquire (fun _ => false) 7 ("d", "s.lock".toList) 0 10
      [(("d", "s.lock".toList), "999999999\n")] []).1
      = .error (.busy ("d", "s.lock".toList) 1) ∧
    ((Lock.acquire (fun _ => false) 7 ("d", "s.lock".toList) 1 10
        [(("d", "s.lock".toList), "999999999\n")] []).1 = .ok () ∧
      (Lock.acquire (fun _ => false) 7 ("d", "s.lock".toList) 1 10
        [(("d", "s.lock".toList), "999999999\n")] []).2.2.2 = ⟨2, 1, 0, 1⟩) :=
  ⟨(C4_stale_reclaim_skips_sleep_but_consumes_attempt (fun _ => false) 7
      ("d", "s.lock".toList) 1 10 [(("d", "s.lock".toList), "999999999\n")]
      "999999999\n" 999999999 (by decide) (by decide) (by decide)).1,
   (C4_stale_reclaim_skips_sleep_but_consumes_attempt (fun _ => false) 7
      ("d", "s.lock".toList) 1 10 [(("d", "s.lock".toList), "999999999\n")]
      "999999999\n" 999999999 (by decide) (by decide) (by decide)).2
      (by decide)⟩

/-- One loop iteration in which the stale check finds a dead PID but the
double-check re-read (after interference replaced the lock file with `s`)
returns a different PID: **no deletion happens** and the loop moves to the
next attempt. -/
theorem Lock.acquireGo_double_check_mismatch (alive : Nat → Bool) (pid : Nat)
    (lockP : FilePathM) (mr fuel attempt : Nat) (fs : FS) (tr : Trace)
    (c s : String) (d e : Nat)
    (hlt : attempt < mr)
    (hread : FS.read fs lockP = some c)
    (hsp : Lock.stale_pid alive fs lockP = some d)
    (hrlp2 : Lock.read_lock_pid (FS.write fs lockP s) lockP = some e)
    (hde : ¬ e = d) :
    Lock.acquireGo alive pid lockP mr (fuel + 1) attempt fs
      [none, none, some (some s)] tr =
    Lock.acquireGo alive pid lockP mr fuel (attempt + 1) (FS.write fs lockP s)
      [] ⟨tr.creates + 1, tr.staleChecks + 1, tr.sleeps, tr.removes⟩ := by
  simp only [Lock.acquireGo, applyEnv, Lock.try_create_lock, hread,
    Option.isSome_some, if_true, if_pos hlt, hsp, hrlp2, Option.some.injEq,
    if_neg hde]

/-- C2: when the lock file records a dead PID, `acquire` with at least one
retry (and no interference) succeeds, and the lock file then contains the
new caller's own PID as decimal text followed by a newline; moreover the
reclaim path deletes only after the re-read PID matches the one just
checked — if another process swaps in a live-owner lock file between the
two reads, no deletion ever happens (`removes = 0`) and that lock file
survives the whole run. -/
theorem C2_stale_reclamation_succeeds_with_double_check
    (alive : Nat → Bool) (pid : Nat) (lockP : FilePathM) (mr rms : Nat)
    (fs : FS) (c : String) (d : Nat)
    (hmr : 1 ≤ mr)
    (hread : FS.read fs lockP = some c)
    (hparse : parsePid (trimChars c.data) = some d)
    (hdead : alive d = false) :
    ((Lock.acquire alive pid lockP mr rms fs []).1 = .ok () ∧
     FS.read (Lock.acquire alive pid lockP mr rms fs []).2.1 lockP
       = some (Lock.pidContent pid)) ∧
    (∀ (s : String) (e : Nat),
      parsePid (trimChars s.data) = some e → alive e = true →
      (Lock.acquire alive pid lockP mr rms fs
        [none, none, some (some s)]).2.2.2.removes = 0 ∧
      FS.read (Lock.acquire alive pid lockP mr rms fs
        [none, none, some (some s)]).2.1 lockP = some s) := by
  obtain ⟨k, hk⟩ : ∃ k, mr = k + 1 := ⟨mr - 1, by omega⟩
  subst hk
  have hrlp : Lock.read_lock_pid fs lockP = some d := by
    simp [Lock.read_lock_pid, hread, hparse]
  have hsp : Lock.stale_pid alive fs lockP = some d := by
    simp [Lock.stale_pid, hrlp, hdead]
  constructor
  · rw [Lock.acquire_stale_seq alive pid lockP k rms fs c d hread hparse hdead]
    exact ⟨rfl, FS.read_write_self _ _ _⟩
  · intro s e hse halivee
    have hde : ¬ e = d := by
      intro h
      rw [h, hdead] at halivee
      cases halivee
    have hw : FS.read (FS.write fs lockP s) lockP = some s :=
      FS.read_write_self _ _ _
    have hrlp2 : Lock.read_lock_pid (FS.write fs lockP s) lockP = some e := by
      simp [Lock.read_lock_pid, hw, hse]
    have hsp2 : Lock.stale_pid alive (FS.write fs lockP s) lockP = none := by
      simp [Lock.stale_pid, hrlp2, halivee]
    have hbusy := Lock.acquireGo_live_busy alive pid lockP (k + 1) s (k + 1) 1
      (FS.write fs lockP s) ⟨1, 1, 0, 0⟩ (by omega) (by omega) hw hsp2
    have hstep : Lock.acquire alive pid lockP (k + 1) rms fs
        [none, none, some (some s)] =
        Lock.acquireGo alive pid lockP (k + 1) (k + 1) 1 (FS.write fs lockP s)
          [] ⟨1, 1, 0, 0⟩ := by
      simp only [Lock.acquire]
      rw [Lock.acquireGo_double_check_mismatch alive pid lockP (k + 1)
        (k + 1) 0 fs ⟨0, 0, 0, 0⟩ c s d e (by omega) hread hsp hrlp2 hde]
    rw [hstep, hbusy]
    exact ⟨rfl, hw⟩

theorem C2_stale_reclamation_succeeds_with_double_check_witness :
    ((Lock.acquire (fun q => q == 1) 7 ("d", "s.lock".toList) 1 10
        [(("d", "s.lock".toList), "999999999\n")] []).1 = .ok () ∧
      FS.read (Lock.acquire (fun q => q == 1) 7 ("d", "s.lock".toList) 1 10
        [(("d", "s.lock".toList), "999999999\n")] []).2.1 ("d", "s.lock".toList)
        = some (Lock.pidContent 7)) ∧
    ((Lock.acquire (fun q => q == 1) 7 ("d", "s.lock".toList) 1 10
        [(("d", "s.lock".toList), "999999999\n")]
        [none, none, some (some "1\n")]).2.2.2.removes = 0 ∧
      FS.read (Lock.acquire (fun q => q == 1) 7 ("d", "s.lock".toList) 1 10
        [(("d", "s.lock".toList), "999999999\n")]
        [none, none, some (some "1\n")]).2.1 ("d", "s.lock".toList)
        = some "1\n") :=
  ⟨(C2_stale_reclamation_succeeds_with_double_check (fun q => q == 1) 7
      ("d", "s.lock".toList) 1 10 [(("d", "s.lock".toList), "999999999\n")]
      "999999999\n" 999999999 (by decide) (by decide) (by decide) (by decide)).1,
   (C2_stale_reclamation_succeeds_with_double_check (fun q => q == 1) 7
      ("d", "s.lock".toList) 1 10 [(("d", "s.lock".toList), "999999999\n")]
      "999999999\n" 999999999 (by decide) (by decide) (by decide) (by decide)).2
      "1\n" 1 (by decide) (by decide)⟩

/-! ### `store::update` and release-on-exit (C3) -/

/-- Error type of `update`: a lock-manager failure from `acquire`, or a
store failure propagated from `read` by the `?` operator. -/
inductive UpdErr where
  | lockFailure (e : LockErr) : UpdErr
  | storeFailure (e : StoreErr) : UpdErr

/-- `store::update`: acquire the lock (`acquire(lock_path, 50, 100)`),
read the document (default if absent), apply the mutation, write
atomically, and release the lock.  The implicit RAII drop of the guard is
made explicit on both exit paths: the error propagation from `read` and
the normal return both run `dropGuard`. -/
def Store.update {T : Type} (C : Codec T) (alive : Nat → Bool) (pid : Nat)
    (dataP lockP : FilePathM) (f : T → T) (fs : FS) : Except UpdErr Unit × FS :=
  let r := Lock.acquire alive pid lockP 50 100 fs []
  match r.1 with
  | .error e => (.error (.lockFailure e), r.2.1)
  | .ok _ =>
    match Store.read C r.2.1 dataP with
    | .error e => (.error (.storeFailure e), Lock.dropGuard lockP r.2.1)
    | .ok v =>
      (.ok (), Lock.dropGuard lockP (Store.write_atomic C r.2.1 dataP (f v)))

/-- C3: destroying a `LockGuard` always deletes its lock file — after
`dropGuard` the lock path does not exist — and `update` releases the lock
on every exit path: whenever its `acquire` step succeeded, the lock path
does not exist in the filesystem `update` returns, both when `update`
returns ok and when the read step failed and the error propagated. -/
theorem C3_guard_destruction_releases_lock (lockP : FilePathM) :
    (∀ fs : FS, FS.read (Lock.dropGuard lockP fs) lockP = none) ∧
    (∀ (T : Type) (C : Codec T) (alive : Nat → Bool) (pid : Nat)
       (dataP : FilePathM) (f : T → T) (fs : FS),
      (Lock.acquire alive pid lockP 50 100 fs []).1 = .ok () →
      FS.read (Store.update C alive pid dataP lockP f fs).2 lockP = none) := by
  constructor
  · intro fs
    exact FS.read_erase_self fs lockP
  · intro T C alive pid dataP f fs hacq
    simp only [Store.update, hacq]
    cases hr : Store.read C (Lock.acquire alive pid lockP 50 100 fs []).2.1 dataP with
    | error e => exact FS.read_erase_self _ lockP
    | ok v => exact FS.read_erase_self _ lockP

theorem C3_guard_destruction_releases_lock_witness :
    FS.read (Lock.dropGuard ("d", "s.lock".toList)
      [(("d", "s.lock".toList), "7\n")]) ("d", "s.lock".toList) = none ∧
    FS.read (Store.update natCodec (fun _ => true) 7 ("d", "s.json".toList)
      ("d", "s.lock".toList) (fun n => n + 1) []).2 ("d", "s.lock".toList)
      = none :=
  ⟨(C3_guard_destruction_releases_lock ("d", "s.lock".toList)).1
     [(("d", "s.lock".toList), "7\n")],
   (C3_guard_destruction_releases_lock ("d", "s.lock".toList)).2 Nat natCodec
     (fun _ => true) 7 ("d", "s.json".toList) (fun n => n + 1) [] (by rfl)⟩

/-! ### C1: concurrent interleavings of the lock protocol

The lock-file protocol is modelled as a transition system over the shared
lock file, with every lock-file system call of `lock.rs` its own atomic
step.  `createOk` is `try_create_lock` succeeding (`O_CREAT | O_EXCL`: it
can fire only while the file does not exist — the OS atomicity guarantee
the code builds on; a failed creation changes nothing and needs no step).
`dropG` is `LockGuard::drop`; `crash` is abrupt process death (guard gone,
file left behind, any pending deletion abandoned).  Stale reclamation is
two separate steps, exactly as in `acquire` (lock.rs:55-62): `passCheck`
is the staleness check plus the matching double-check re-read, both
observing the same dead recorded PID, after which the process is *armed*;
`doDelete` is the later `fs::remove_file`, which deletes **whatever file
is there at that instant** — including a live lock created by someone else
after the re-read. -/

/-- Shared state: the PID recorded in the lock file (if it exists), the
processes currently holding a live `LockGuard`, the crashed processes, and
the processes that have passed the double-check re-read and have a
`remove_file` still pending. -/
structure MState where
  owner : Option Nat
  guards : List Nat
  dead : List Nat
  armed : List Nat

/-- One atomic lock-file system call of some process. -/
inductive LockStep : MState → MState → Prop where
  | createOk (p : Nat) (g d a : List Nat) : p ∉ d →
      LockStep ⟨none, g, d, a⟩ ⟨some p, p :: g, d, a⟩
  | dropG (p : Nat) (o : Option Nat) (g d a : List Nat) : p ∈ g →
      LockStep ⟨o, g, d, a⟩ ⟨none, g.erase p, d, a⟩
  | crash (p : Nat) (o : Option Nat) (g d a : List Nat) :
      LockStep ⟨o, g, d, a⟩ ⟨o, g.erase p, p :: d, a.erase p⟩
  | passCheck (p q : Nat) (g d a : List Nat) : p ∉ d → q ∈ d →
      LockStep ⟨some q, g, d, a⟩ ⟨some q, g, d, p :: a⟩
  | doDelete (p : Nat) (o : Option Nat) (g d a : List Nat) : p ∈ a →
      LockStep ⟨o, g, d, a⟩ ⟨none, g, d, a.erase p⟩

/-- Protocol invariant (provable only while nobody is mid-reclamation):
at most one live guard exists, and a guard holder is the recorded owner of
the lock file and is not dead. -/
def LockInv (s : MState) : Prop :=
  s.guards.length ≤ 1 ∧ ∀ p ∈ s.guards, s.owner = some p ∧ p ∉ s.dead

/-- Initial state: no lock file, no guards, no crashed processes, no
pending deletions. -/
def initLockState : MState := ⟨none, [], [], []⟩

theorem List_erase_length_le (l : List Nat) (p : Nat) :
    (l.erase p).length ≤ l.length := by
  by_cases hp : p ∈ l
  · have := List.length_erase_add_one hp
    omega
  · rw [List.erase_of_not_mem hp]

/-- Steps whose source and target have no pending deletion preserve the
invariant: these are exactly the executions without stale reclamation. -/
theorem LockStep_noReclaim_preserves_inv {s t : MState} (h : LockStep s t)
    (hs0 : s.armed = []) (ht0 : t.armed = []) (hs : LockInv s) : LockInv t := by
  cases h with
  | createOk p g d a hp =>
    obtain ⟨hlen, hg⟩ := hs
    have hge : g = [] := by
      cases g with
      | nil => rfl
      | cons x xs =>
        have hx := (hg x (by simp)).1
        simp at hx
    subst hge
    refine ⟨by simp, ?_⟩
    intro q hq
    simp at hq
    subst hq
    exact ⟨rfl, hp⟩
  | dropG p o g d a hp =>
    obtain ⟨hlen, hg⟩ := hs
    have hgp : g = [p] := by
      cases g with
      | nil => simp at hp
      | cons x xs =>
        cases xs with
        | nil =>
          simp at hp
          simp [hp]
        | cons y ys => simp at hlen
    subst hgp
    refine ⟨by simp, ?_⟩
    intro q hq
    simp [List.erase_cons_head] at hq
  | crash p o g d a =>
    obtain ⟨hlen, hg⟩ := hs
    have hlen2 : g.length ≤ 1 := hlen
    refine ⟨le_trans (List_erase_length_le g p) hlen, ?_⟩
    intro q hq
    have hqg : q ∈ g := List.mem_of_mem_erase hq
    refine ⟨(hg q hqg).1, ?_⟩
    intro hqd
    rcases List.mem_cons.mp hqd with hqp | hqd2
    · subst hqp
      by_cases hpg : q ∈ g
      · have h1 := List.length_erase_add_one hpg
        have h3 : (g.erase q).length = 0 := by omega
        rw [List.length_eq_zero] at h3
        rw [h3] at hq
        simp at hq
      · rw [List.erase_of_not_mem hpg] at hq
        exact hpg hq
    · exact (hg q hqg).2 hqd2
  | passCheck p q g d a hp hq =>
    have : p :: a = [] := ht0
    simp at this
  | doDelete p o g d a hpa =>
    have ha : a = [] := hs0
    subst ha
    simp at hpa

/-- C1 counterexample: under the code's real interleaving the mutual
exclusion claim fails.  Starting from the clean initial state: process 999
creates the lock and crashes; acquirers 1 and 2 both find the recorded
PID 999 dead and both pass the double-check re-read; 1 deletes the stale
file and creates its own lock (holding a guard); then 2's already-armed
`fs::remove_file` deletes 1's *live* lock, and 2 creates its own —
reaching a state where two `LockGuard`s exist at the same instant. -/
theorem C1_counterexample_two_guards_reachable :
    Relation.ReflTransGen LockStep initLockState
      ⟨some 2, [2, 1], [999], []⟩ ∧
    (MState.mk (some 2) [2, 1] [999] []).guards.length = 2 := by
  have h1 : LockStep ⟨none, [], [], []⟩ ⟨some 999, [999], [], []⟩ :=
    LockStep.createOk 999 [] [] [] (by simp)
  have h2 : LockStep ⟨some 999, [999], [], []⟩ ⟨some 999, [], [999], []⟩ :=
    LockStep.crash 999 (some 999) [999] [] []
  have h3 : LockStep ⟨some 999, [], [999], []⟩ ⟨some 999, [], [999], [1]⟩ :=
    LockStep.passCheck 1 999 [] [999] [] (by simp) (by simp)
  have h4 : LockStep ⟨some 999, [], [999], [1]⟩ ⟨some 999, [], [999], [2, 1]⟩ :=
    LockStep.passCheck 2 999 [] [999] [1] (by simp) (by simp)
  have h5 : LockStep ⟨some 999, [], [999], [2, 1]⟩ ⟨none, [], [999], [2]⟩ :=
    LockStep.doDelete 1 (some 999) [] [999] [2, 1] (by simp)
  have h6 : LockStep ⟨none, [], [999], [2]⟩ ⟨some 1, [1], [999], [2]⟩ :=
    LockStep.createOk 1 [] [999] [2] (by simp)
  have h7 : LockStep ⟨some 1, [1], [999], [2]⟩ ⟨none, [1], [999], []⟩ :=
    LockStep.doDelete 2 (some 1) [1] [999] [2] (by simp)
  have h8 : LockStep ⟨none, [1], [999], []⟩ ⟨some 2, [2, 1], [999], []⟩ :=
    LockStep.createOk 2 [1] [999] [] (by simp)
  have t1 := Relation.ReflTransGen.single (r := LockStep) h1
  have t2 := t1.tail h2
  have t3 := t2.tail h3
  have t4 := t3.tail h4
  have t5 := t4.tail h5
  have t6 := t5.tail h6
  have t7 := t6.tail h7
  have t8 := t7.tail h8
  exact ⟨t8, rfl⟩

/-- C1 (amended): lock-file creation is atomic and exclusive — while the
lock file exists no step can add a guard, so two processes racing to
create it can never both succeed — and a losing caller with its attempts
exhausted fails with the lock-busy error; at most one `LockGuard` exists
at any instant in every execution without stale-lock reclamation (no
process between its double-check re-read and its pending delete).  With
concurrent reclamation the guarantee fails, as the counterexample's
reachable two-guard state shows: the re-read and the deletion are
separate system calls. -/
theorem C1_creation_exclusive_and_mutex_without_reclamation :
    (∀ s t : MState, LockStep s t → s.owner ≠ none →
      t.guards.length ≤ s.guards.length) ∧
    (∀ s : MState,
      Relation.ReflTransGen
        (fun u v : MState => LockStep u v ∧ u.armed = [] ∧ v.armed = [])
        initLockState s →
      s.guards.length ≤ 1) ∧
    (∀ (alive : Nat → Bool) (pid : Nat) (lockP : FilePathM) (rms : Nat)
       (fs : FS) (c : String), FS.read fs lockP = some c →
      (Lock.acquire alive pid lockP 0 rms fs []).1
        = .error (.busy lockP 1)) := by
  refine ⟨?_, ?_, ?_⟩
  · intro s t h ho
    cases h with
    | createOk p g d a hp => exact absurd rfl ho
    | dropG p o g d a hp => exact List_erase_length_le g p
    | crash p o g d a => exact List_erase_length_le g p
    | passCheck p q g d a hp hq => exact le_refl _
    | doDelete p o g d a hpa => exact le_refl _
  · have key : ∀ s : MState,
        Relation.ReflTransGen
          (fun u v : MState => LockStep u v ∧ u.armed = [] ∧ v.armed = [])
          initLockState s → LockInv s := by
      intro s h
      induction h with
      | refl =>
        exact ⟨by simp [initLockState], by simp [initLockState]⟩
      | tail _ hstep ih =>
        exact LockStep_noReclaim_preserves_inv hstep.1 hstep.2.1 hstep.2.2 ih
    exact fun s h => (key s h).1
  · intro alive pid lockP rms fs c hread
    rw [Lock.acquire_zero_retries_busy alive pid lockP rms fs c hread]

theorem C1_creation_exclusive_and_mutex_without_reclamation_witness :
    (MState.mk (some 5) [] [5] []).guards.length
      ≤ (MState.mk (some 5) [5] [] []).guards.length ∧
    initLockState.guards.length ≤ 1 ∧
    (Lock.acquire (fun _ => true) 8 ("d", "s.lock".toList) 0 10
      [(("d", "s.lock".toList), "7\n")] []).1
      = .error (.busy ("d", "s.lock".toList) 1) :=
  ⟨C1_creation_exclusive_and_mutex_without_reclamation.1
     ⟨some 5, [5], [], []⟩ ⟨some 5, [], [5], []⟩
     (LockStep.crash 5 (some 5) [5] [] []) (by simp),
   C1_creation_exclusive_and_mutex_without_reclamation.2.1 initLockState
     Relation.ReflTransGen.refl,
   C1_creation_exclusive_and_mutex_without_reclamation.2.2 (fun _ => true) 8
     ("d", "s.lock".toList) 10 [(("d", "s.lock".toList), "7\n")] "7\n"
     (by decide)⟩
